import Mathlib

/-!
Shallow embedding of the watermark configuration / export engine of the
Photo-Watermark-Mk-II renderer (src/unnamed/part_000).  Numbers that are JS
doubles holding normalized coordinates are modelled as rationals; host calls
are modelled as explicit parameters (resolver functions, host results).
-/

namespace PhotoWatermark

/-- A normalized overlay point, `{ x, y }` in the source. -/
structure Point where
  x : ℚ
  y : ℚ
deriving DecidableEq, Repr

/-- `clamp(value, min = 0, max = 1)`; the renderer only ever calls it with the
default bounds `0` and `1`, so the defaults are baked in. -/
def clamp (value : ℚ) : ℚ := min (max value 0) 1

/-- The `{ x: 0.5, y: 0.5 }` center point. -/
def centerPoint : Point := ⟨0.5, 0.5⟩

inductive WatermarkMode where
  | preset
  | custom
deriving DecidableEq, Repr

/-- `WatermarkOptions`.  `position` is kept as a string because at runtime it
is an arbitrary string (the TS annotation narrows it, but host-loaded configs
are not checked), which is why the source guards its table lookup with
`?? presetPositionMap.center`. -/
structure WatermarkOptions where
  text : String
  size : ℚ
  color : String
  opacity : ℚ
  mode : WatermarkMode
  position : String
  offsetX : Option ℚ
  offsetY : Option ℚ
deriving DecidableEq, Repr

/-- The initial `useState` value of `watermarkOptions` (part_000 lines 141-150). -/
def initialWatermarkOptions : WatermarkOptions :=
  { text := "Hello World"
    size := 50
    color := "#ffffff"
    opacity := 100
    mode := .preset
    position := "center"
    offsetX := some 0.5
    offsetY := some 0.5 }

/-- `presetPositionMap` as a runtime record lookup: `none` for a key outside
the nine anchors. -/
def presetPositionMap (position : String) : Option Point :=
  if position = "north" then some ⟨0.5, 0.1⟩
  else if position = "northeast" then some ⟨0.9, 0.1⟩
  else if position = "east" then some ⟨0.9, 0.5⟩
  else if position = "southeast" then some ⟨0.9, 0.9⟩
  else if position = "south" then some ⟨0.5, 0.9⟩
  else if position = "southwest" then some ⟨0.1, 0.9⟩
  else if position = "west" then some ⟨0.1, 0.5⟩
  else if position = "northwest" then some ⟨0.1, 0.1⟩
  else if position = "center" then some ⟨0.5, 0.5⟩
  else none

/-- `WatermarkTemplate`; `createdAt` is modelled as the millisecond timestamp
that `new Date(createdAt).getTime()` yields for the stored string. -/
structure WatermarkTemplate where
  id : String
  name : String
  createdAt : Nat
  options : WatermarkOptions
deriving DecidableEq, Repr

/-- The mutating operations on the live `watermarkOptions` state: the four
direct field edits wired to the controls, drag finalization
(`finalizeCustomPosition`, also reached by picking "custom" in the selector),
preset selection (`handlePositionChange` with a named anchor), and wholesale
replacement by a template load (`handleLoadTemplate`). -/
inductive WatermarkOp where
  | setText (s : String)
  | setSize (n : ℚ)
  | setColor (c : String)
  | setOpacity (n : ℚ)
  | finalizeCustom (p : Point)
  | selectPreset (pos : String)
  | loadTpl (t : WatermarkTemplate)
deriving DecidableEq, Repr

def applyWatermarkOp : WatermarkOp → WatermarkOptions → WatermarkOptions
  | .setText s, o => { o with text := s }
  | .setSize n, o => { o with size := n }
  | .setColor c, o => { o with color := c }
  | .setOpacity n, o => { o with opacity := n }
  | .finalizeCustom p, o => { o with mode := .custom, offsetX := some p.x, offsetY := some p.y }
  | .selectPreset pos, o =>
      { o with mode := .preset, position := pos, offsetX := none, offsetY := none }
  | .loadTpl t, _ => t.options

/-- Present and inside `[0, 1]`. -/
def offsetOKb : Option ℚ → Bool
  | some v => decide (0 ≤ v ∧ v ≤ 1)
  | none => false

/-- The claimed mode/offset invariant: Custom mode has both offsets present
and in `[0, 1]`; Preset mode has both offsets absent. -/
def optionsInvariant (o : WatermarkOptions) : Prop :=
  (o.mode = .custom → offsetOKb o.offsetX = true ∧ offsetOKb o.offsetY = true)
  ∧ (o.mode = .preset → o.offsetX = none ∧ o.offsetY = none)

instance (o : WatermarkOptions) : Decidable (optionsInvariant o) := by
  unfold optionsInvariant
  infer_instance

def pointInUnit (p : Point) : Prop := 0 ≤ p.x ∧ p.x ≤ 1 ∧ 0 ≤ p.y ∧ p.y ≤ 1

instance (p : Point) : Decidable (pointInUnit p) := by
  unfold pointInUnit
  infer_instance

/-- Side condition under which an operation is fired by the UI:
`finalizeCustom` always commits the tracked overlay point, which is produced
by clamped arithmetic, and a loaded template carries whatever options it
stored. -/
def opOK : WatermarkOp → Prop
  | .finalizeCustom p => pointInUnit p
  | .loadTpl t => optionsInvariant t.options
  | _ => True

instance (op : WatermarkOp) : Decidable (opOK op) := by
  unfold opOK
  cases op <;> infer_instance

/-- The overlay-position effect (part_000 lines 205-228).  The first
component is the new `overlayPosition`, the second the new
`latestCustomPosition.current`; every branch of the source assigns the same
value to both. -/
def resolveOverlayEffect (hasImage : Bool) (o : WatermarkOptions) : Point × Point :=
  if hasImage = false then (centerPoint, centerPoint)
  else
    match o.mode, o.offsetX, o.offsetY with
    | .custom, some ox, some oy =>
        let next : Point := ⟨clamp ox, clamp oy⟩
        (next, next)
    | _, _, _ =>
        let preset := (presetPositionMap o.position).getD centerPoint
        (preset, preset)

/-!  OptionsSync: the applied-id invalidation reaction and its one-shot
suppression flag (part_000 lines 249-260, 458-473). -/

/-- The slice of component state that the applied-id reaction reads and
writes: the live options, `appliedTemplateId`, `applyingTemplateRef.current`,
and `isConfigReady`. -/
structure SyncState where
  options : WatermarkOptions
  appliedTemplateId : Option String
  applyingTemplate : Bool
  isConfigReady : Bool
deriving DecidableEq, Repr

/-- The invalidation effect body (lines 249-260): skip before the initial
load, consume the one-shot suppression flag if set, otherwise clear a
non-null applied id. -/
def appliedIdReaction (s : SyncState) : SyncState :=
  if s.isConfigReady = false then s
  else if s.applyingTemplate then { s with applyingTemplate := false }
  else if s.appliedTemplateId.isSome then { s with appliedTemplateId := none }
  else s

/-- A direct edit: replace the live options (any of the control handlers). -/
def directEditOptions (f : WatermarkOptions → WatermarkOptions) (s : SyncState) : SyncState :=
  { s with options := f s.options }

/-- `handleLoadTemplate` (lines 458-473), on the found-template path: raise
the suppression flag, replace the options wholesale, set the applied id. -/
def handleLoadTemplate (t : WatermarkTemplate) (s : SyncState) : SyncState :=
  { s with applyingTemplate := true, options := t.options, appliedTemplateId := some t.id }

/-!  TemplateManager: deletion fallback (part_000 lines 475-504). -/

/-- `sortTemplatesByTime`: a stable sort by `createdAt` descending
(`Array.prototype.sort` is stable), written as stable insertion. -/
def insertByTimeDesc (t : WatermarkTemplate) : List WatermarkTemplate → List WatermarkTemplate
  | [] => [t]
  | h :: rest =>
      if t.createdAt ≤ h.createdAt then h :: insertByTimeDesc t rest
      else t :: h :: rest

def sortTemplatesByTime (items : List WatermarkTemplate) : List WatermarkTemplate :=
  items.foldl (fun acc t => insertByTimeDesc t acc) []

/-- What `window.electronAPI.deleteTemplate` resolves with. -/
structure DeleteResult where
  templates : List WatermarkTemplate
  lastUsedTemplateId : Option String
deriving DecidableEq, Repr

/-- `handleDeleteTemplate` (lines 475-504), success path, given the current
selected and applied ids and the host result.  Returns the new template
list, the new selected id, and the new applied id. -/
def handleDeleteTemplate (selectedId : String) (appliedId : Option String)
    (result : DeleteResult) :
    List WatermarkTemplate × Option String × Option String :=
  let sorted := sortTemplatesByTime result.templates
  let lastUsedPresent :=
    match result.lastUsedTemplateId with
    | some lid => sorted.any (fun item => item.id = lid)
    | none => false
  let candidateId :=
    if lastUsedPresent then result.lastUsedTemplateId
    else sorted.head?.map WatermarkTemplate.id
  let newApplied :=
    if appliedId = some selectedId then
      if lastUsedPresent then result.lastUsedTemplateId else none
    else appliedId
  (sorted, candidateId, newApplied)

/-!  ExportOrchestrator (part_000 lines 333-353, 528-588). -/

inductive ExportNamingMode where
  | original
  | prefixNaming
  | suffixNaming
deriving DecidableEq, Repr

inductive ExportFormat where
  | source
  | png
  | jpeg
deriving DecidableEq, Repr

/-- `ExportOptions`; `prefixText`/`suffixText` stand for the source fields
named after the naming modes, which are not legal Lean identifiers. -/
structure ExportOptions where
  outputDir : String
  namingMode : ExportNamingMode
  prefixText : String
  suffixText : String
  format : ExportFormat
deriving DecidableEq, Repr

structure ExportProgressPayload where
  processed : Nat
  total : Nat
  currentFile : String
deriving DecidableEq, Repr

structure ExportFailure where
  file : String
  reason : String
deriving DecidableEq, Repr

structure ExportSummary where
  successCount : Nat
  failureCount : Nat
  failures : List ExportFailure
deriving DecidableEq, Repr

inductive ExportState where
  | idle
  | running
  | completed
  | error
deriving DecidableEq, Repr

/-- `ExportStatus`; `none` stands for an absent or null field. -/
structure ExportStatus where
  state : ExportState
  total : Nat
  processed : Nat
  message : Option String
  summary : Option ExportSummary
deriving DecidableEq, Repr

structure FileInfo where
  path : String
  name : String
  thumbnail : String
deriving DecidableEq, Repr

/-- The payload handed to `runBatchExport`. -/
structure ExportPayload where
  filePaths : List String
  watermarkOptions : WatermarkOptions
  exportOptions : ExportOptions
deriving DecidableEq, Repr

/-- How the host's `runBatchExport` promise settles. -/
inductive HostBatchResult where
  | ok (summary : ExportSummary)
  | rejected (msg : String)
deriving DecidableEq, Repr

def progressMessage (processed total : Nat) : String :=
  "正在导出 " ++ toString processed ++ " / " ++ toString total

/-- The `onExportProgress` subscription callback (lines 333-353): ignore the
event unless the status is still `running`, otherwise take `processed`,
`total` and the progress message from the payload. -/
def applyProgress (prev : ExportStatus) (payload : ExportProgressPayload) : ExportStatus :=
  if prev.state ≠ .running then prev
  else
    { prev with
      total := payload.total
      processed := payload.processed
      message := some (progressMessage payload.processed payload.total) }

/-- The payload built at line 552-560: all queued paths, the live options,
and the export options with trimmed affixes. -/
def exportPayloadOf (fileList : List FileInfo) (wm : WatermarkOptions)
    (eo : ExportOptions) : ExportPayload :=
  { filePaths := fileList.map FileInfo.path
    watermarkOptions := wm
    exportOptions := { eo with prefixText := eo.prefixText.trim, suffixText := eo.suffixText.trim } }

/-- The `running` status installed at lines 562-568. -/
def initialRunningStatus (total : Nat) : ExportStatus :=
  { state := .running, total := total, processed := 0
    message := some (progressMessage 0 total), summary := none }

/-- `handleStartExport` (lines 528-588) as a whole run: the guard branches,
then the running phase over the delivered progress events, then the terminal
transition chosen by how the host promise settles.  The second component is
the payload sent to `runBatchExport`, `none` when no host call was made. -/
def handleStartExport (fileList : List FileInfo) (wm : WatermarkOptions)
    (eo : ExportOptions) (prev : ExportStatus) (host : HostBatchResult)
    (progress : List ExportProgressPayload) : ExportStatus × Option ExportPayload :=
  if fileList.length = 0 then
    ({ state := .error, total := 0, processed := 0
       message := some "请先添加需要处理的文件", summary := none }, none)
  else if eo.outputDir = "" then
    ({ prev with
       state := .error, total := fileList.length, processed := 0
       message := some "请选择导出文件夹", summary := none }, none)
  else
    let payload := exportPayloadOf fileList wm eo
    let during := progress.foldl applyProgress (initialRunningStatus payload.filePaths.length)
    match host with
    | .ok result =>
        ({ state := .completed
           total := payload.filePaths.length
           processed := payload.filePaths.length
           message := some ("导出完成：成功 " ++ toString result.successCount
             ++ " 个，失败 " ++ toString result.failureCount ++ " 个")
           summary := some result }, some payload)
    | .rejected msg =>
        ({ during with state := .error, message := some msg, summary := none }, some payload)

/-!  FileIngestionQueue: `processFiles` (part_000 lines 286-296). -/

/-- Resolution of one path: `getFileName` then `getThumbnail`, either of
which may reject. -/
def resolveEntry (getFileName getThumbnail : String → Except String String)
    (path : String) : Except String FileInfo := do
  let name ← getFileName path
  let thumbnail ← getThumbnail path
  pure { path := path, name := name, thumbnail := thumbnail }

/-- `Promise.all`: resolves with the list of results in input order, or
rejects as soon as any member rejects. -/
def promiseAll {α : Type} : List (Except String α) → Except String (List α)
  | [] => .ok []
  | x :: rest =>
      match x with
      | .error e => .error e
      | .ok v =>
          match promiseAll rest with
          | .ok l => .ok (v :: l)
          | .error e => .error e

/-- `processFiles`: an empty input returns early; otherwise `Promise.all`
over the per-path resolutions — if any rejects, the whole combined promise
rejects and `setFileList` is never reached, so the list is unchanged;
otherwise the resolved entries are appended in input order. -/
def processFiles (getFileName getThumbnail : String → Except String String)
    (prevList : List FileInfo) (files : List String) : List FileInfo :=
  if files.isEmpty then prevList
  else
    match promiseAll (files.map (resolveEntry getFileName getThumbnail)) with
    | .ok fileInfoList => prevList ++ fileInfoList
    | .error _ => prevList

/-!  OptionsSync: debounced persistence (part_000 lines 262-276), in a
discrete-time model.  A change re-runs the effect: the previous cleanup
clears the pending timer (a no-op if it already fired), and the body
schedules a new write 400 ms later unless the initial load is pending. -/

structure DebounceState where
  pending : Option Nat
  writes : List Nat
deriving DecidableEq, Repr

/-- Processing one configuration/applied-id change at time `t`: a pending
timer with a deadline already reached has fired; one still in the future is
cancelled by the cleanup; then, if the config is ready, a write is scheduled
for `t + 400`. -/
def debounceStep (ready : Bool) (s : DebounceState) (t : Nat) : DebounceState :=
  let fired :=
    match s.pending with
    | some d =>
        if d ≤ t then { pending := none, writes := s.writes ++ [d] }
        else { pending := none, writes := s.writes }
    | none => s
  if ready then { fired with pending := some (t + 400) } else fired

/-- After the last change, an undisturbed pending timer fires at its
deadline. -/
def debounceFlush (s : DebounceState) : List Nat :=
  match s.pending with
  | some d => s.writes ++ [d]
  | none => s.writes

/-- The write times produced by a whole trace of change times. -/
def debounceRun (ready : Bool) (changes : List Nat) : List Nat :=
  debounceFlush (changes.foldl (debounceStep ready) { pending := none, writes := [] })

/-- Each change lands strictly inside the 400 ms window opened by the
previous one. -/
def gapsWithinWindow : Nat → List Nat → Bool
  | _, [] => true
  | prev, t :: ts => decide (t < prev + 400) && gapsWithinWindow t ts

/-!  Concrete demonstration values used by witness theorems. -/

/-- Preset-mode options with absent offsets. -/
def demoPresetOptions : WatermarkOptions :=
  { initialWatermarkOptions with offsetX := none, offsetY := none }

/-- Custom-mode options carrying out-of-range offsets. -/
def demoCustomOptions : WatermarkOptions :=
  { initialWatermarkOptions with mode := .custom, offsetX := some 1.5, offsetY := some (-2) }

/-- Preset-mode options whose position string is not one of the nine anchors. -/
def demoUnknownPositionOptions : WatermarkOptions :=
  { initialWatermarkOptions with position := "bogus", offsetX := none, offsetY := none }

def demoTemplate : WatermarkTemplate :=
  { id := "tpl-2", name := "demo", createdAt := 7, options := demoPresetOptions }

def demoSyncState : SyncState :=
  { options := initialWatermarkOptions
    appliedTemplateId := some "tpl-1"
    applyingTemplate := false
    isConfigReady := true }

def demoEdit : WatermarkOptions → WatermarkOptions := fun o => { o with text := "edited" }

def demoDeleteResult : DeleteResult :=
  { templates := [{ id := "B", name := "b", createdAt := 5, options := initialWatermarkOptions }]
    lastUsedTemplateId := none }

def demoDeleteResultLast : DeleteResult :=
  { templates := [{ id := "B", name := "b", createdAt := 5, options := initialWatermarkOptions }]
    lastUsedTemplateId := some "B" }

def demoExportOptions : ExportOptions :=
  { outputDir := "/out"
    namingMode := .prefixNaming
    prefixText := " wm_ "
    suffixText := "_watermarked"
    format := .source }

def demoIdleStatus : ExportStatus :=
  { state := .idle, total := 0, processed := 0, message := none, summary := none }

def demoSummary : ExportSummary :=
  { successCount := 3, failureCount := 1
    failures := [{ file := "a.jpg", reason := "decode error" }] }

def demoFileList : List FileInfo :=
  [⟨"/a.jpg", "a.jpg", "t1"⟩, ⟨"/b.jpg", "b.jpg", "t2"⟩,
   ⟨"/c.jpg", "c.jpg", "t3"⟩, ⟨"/d.jpg", "d.jpg", "t4"⟩]

def demoProgress : ExportProgressPayload := ⟨2, 4, "b.jpg"⟩

def demoCompletedStatus : ExportStatus :=
  { state := .completed, total := 4, processed := 4, message := none, summary := some demoSummary }

def demoGetFileName : String → Except String String :=
  fun p => if p = "a.png" then .ok "a" else .error "getFileName failed"

def demoGetThumbnail : String → Except String String := fun _ => .ok "thumb"

def demoPrevList : List FileInfo := [⟨"/x.png", "x.png", "tx"⟩]

/-!  Supporting lemmas. -/

/-- Clamping lands in the unit interval, so every point the overlay effect
produces (and hence every point `finalizeCustomPosition` can commit) lies in
the unit square. -/
theorem clamp_mem_unit (v : ℚ) : 0 ≤ clamp v ∧ clamp v ≤ 1 := by
  unfold clamp
  constructor
  · exact le_min (le_max_right v 0) (by norm_num)
  · exact min_le_right _ _

/-- Every entry of the preset table is in the unit square. -/
theorem presetPositionMap_in_unit (pos : String) (p : Point)
    (h : presetPositionMap pos = some p) : pointInUnit p := by
  unfold presetPositionMap at h
  split_ifs at h
  all_goals injection h with h2
  all_goals cases h2
  all_goals norm_num [pointInUnit]

/-- The point tracked as `latestCustomPosition.current` after the overlay
effect runs is always in the unit square. -/
theorem resolveOverlayEffect_in_unit (hasImage : Bool) (o : WatermarkOptions) :
    pointInUnit (resolveOverlayEffect hasImage o).2 := by
  have hcenter : pointInUnit centerPoint := by norm_num [pointInUnit, centerPoint]
  have hpreset : pointInUnit ((presetPositionMap o.position).getD centerPoint) := by
    cases hp : presetPositionMap o.position with
    | none => simpa [hp] using hcenter
    | some p => simpa [hp] using presetPositionMap_in_unit o.position p hp
  unfold resolveOverlayEffect
  cases hasImage with
  | false => simpa using hcenter
  | true =>
    rcases o with ⟨t, sz, c, op, mode, pos, ox, oy⟩
    cases mode with
    | preset => cases ox <;> cases oy <;> simpa using hpreset
    | custom =>
      cases ox with
      | none => cases oy <;> simpa using hpreset
      | some x =>
        cases oy with
        | none => simpa using hpreset
        | some y =>
          exact ⟨(clamp_mem_unit _).1, (clamp_mem_unit _).2,
            (clamp_mem_unit _).1, (clamp_mem_unit _).2⟩

/-- C1, counterexample: the claimed mode/offset invariant fails at the very
initial value of the live options, which has mode Preset with both offsets
present (0.5). -/
theorem initial_options_violate_invariant :
    ¬ optionsInvariant initialWatermarkOptions ∧
    initialWatermarkOptions.mode = .preset ∧
    initialWatermarkOptions.offsetX = some 0.5 ∧
    initialWatermarkOptions.offsetY = some 0.5 := by
  refine ⟨fun h => ?_, rfl, rfl, rfl⟩
  have := (h.2 rfl).1
  simp [initialWatermarkOptions] at this

/-- C1, amended: every mutating operation on the live options preserves the
invariant (drag finalization commits a unit-square point, template load
installs the template's stored options), and drag finalization and preset
selection even establish it unconditionally — but the initial value itself
violates it. -/
theorem watermark_ops_preserve_invariant :
    (∀ op o, opOK op → optionsInvariant o → optionsInvariant (applyWatermarkOp op o)) ∧
    (∀ p o, pointInUnit p → optionsInvariant (applyWatermarkOp (.finalizeCustom p) o)) ∧
    (∀ pos o, optionsInvariant (applyWatermarkOp (.selectPreset pos) o)) := by
  have hfin : ∀ p o, pointInUnit p →
      optionsInvariant (applyWatermarkOp (.finalizeCustom p) o) := by
    intro p o hp
    obtain ⟨h1, h2, h3, h4⟩ := hp
    refine ⟨fun _ => ⟨?_, ?_⟩, fun h => by simp [applyWatermarkOp] at h⟩
    · simpa [applyWatermarkOp, offsetOKb] using decide_eq_true ⟨h1, h2⟩
    · simpa [applyWatermarkOp, offsetOKb] using decide_eq_true ⟨h3, h4⟩
  have hsel : ∀ pos o, optionsInvariant (applyWatermarkOp (.selectPreset pos) o) := by
    intro pos o
    exact ⟨fun h => by simp [applyWatermarkOp] at h, fun _ => ⟨rfl, rfl⟩⟩
  refine ⟨?_, hfin, hsel⟩
  intro op o hop hinv
  cases op with
  | setText s => exact hinv
  | setSize n => exact hinv
  | setColor c => exact hinv
  | setOpacity n => exact hinv
  | finalizeCustom p => exact hfin p o hop
  | selectPreset pos => exact hsel pos o
  | loadTpl t => exact hop

/-- C1, witness for the amended theorem at concrete operations and states. -/
theorem watermark_ops_preserve_invariant_witness :
    opOK (WatermarkOp.setText "hi") ∧
    optionsInvariant demoPresetOptions ∧
    optionsInvariant (applyWatermarkOp (.setText "hi") demoPresetOptions) ∧
    pointInUnit ⟨0.25, 0.75⟩ ∧
    optionsInvariant (applyWatermarkOp (.finalizeCustom ⟨0.25, 0.75⟩) initialWatermarkOptions) ∧
    optionsInvariant (applyWatermarkOp (.selectPreset "north") initialWatermarkOptions) :=
  ⟨by decide, by decide,
   watermark_ops_preserve_invariant.1 (.setText "hi") demoPresetOptions (by decide) (by decide),
   by norm_num [pointInUnit],
   watermark_ops_preserve_invariant.2.1 ⟨0.25, 0.75⟩ initialWatermarkOptions
     (by norm_num [pointInUnit]),
   watermark_ops_preserve_invariant.2.2 "north" initialWatermarkOptions⟩

/-- C7: with an image selected, Custom mode with both offsets present
resolves to the offsets clamped to the unit interval; Preset mode or a
missing offset resolves to the preset-table entry for the position string,
with center as the default for an unknown position; with no image selected
both the overlay position and the transient candidate are forced to center.
The second pair component is the transient candidate
(`latestCustomPosition.current`). -/
theorem overlay_position_resolution (o : WatermarkOptions) :
    (∀ x y, o.mode = .custom → o.offsetX = some x → o.offsetY = some y →
      resolveOverlayEffect true o = (⟨clamp x, clamp y⟩, ⟨clamp x, clamp y⟩)) ∧
    ((o.mode = .preset ∨ o.offsetX = none ∨ o.offsetY = none) →
      resolveOverlayEffect true o =
        ((presetPositionMap o.position).getD centerPoint,
         (presetPositionMap o.position).getD centerPoint)) ∧
    resolveOverlayEffect false o = (centerPoint, centerPoint) := by
  refine ⟨?_, ?_, by simp [resolveOverlayEffect]⟩
  · intro x y hm hx hy
    rcases o with ⟨t, sz, c, op, mode, pos, ox, oy⟩
    simp only at hm hx hy
    subst hm hx hy
    simp [resolveOverlayEffect]
  · intro h
    rcases o with ⟨t, sz, c, op, mode, pos, ox, oy⟩
    simp only at h
    cases mode <;> cases ox <;> cases oy <;> simp_all [resolveOverlayEffect]

/-- C7, witness: out-of-range custom offsets are clamped; an unknown
position string and a missing offset fall back to the preset table default;
no selected image forces center. -/
theorem overlay_position_resolution_witness :
    demoCustomOptions.mode = .custom ∧
    demoCustomOptions.offsetX = some 1.5 ∧
    demoCustomOptions.offsetY = some (-2) ∧
    resolveOverlayEffect true demoCustomOptions =
      (⟨clamp 1.5, clamp (-2)⟩, ⟨clamp 1.5, clamp (-2)⟩) ∧
    demoUnknownPositionOptions.offsetX = none ∧
    resolveOverlayEffect true demoUnknownPositionOptions =
      ((presetPositionMap demoUnknownPositionOptions.position).getD centerPoint,
       (presetPositionMap demoUnknownPositionOptions.position).getD centerPoint) ∧
    resolveOverlayEffect false initialWatermarkOptions = (centerPoint, centerPoint) :=
  ⟨rfl, rfl, rfl,
   (overlay_position_resolution demoCustomOptions).1 1.5 (-2) rfl rfl rfl,
   rfl,
   (overlay_position_resolution demoUnknownPositionOptions).2.1 (Or.inr (Or.inl rfl)),
   (overlay_position_resolution initialWatermarkOptions).2.2⟩

/-- C2: after the initial load, a direct edit followed by the invalidation
reaction leaves the applied id null; a template load raises the one-shot
suppression flag, so the reaction consumes the flag (clearing it) and keeps
the applied id at the loaded template's id and the options at the template's
snapshot; the flag being cleared, the very next direct edit invalidates the
applied id again. -/
theorem direct_edit_clears_applied_load_sets_applied
    (s : SyncState) (f g : WatermarkOptions → WatermarkOptions) (t : WatermarkTemplate)
    (hready : s.isConfigReady = true) (hflag : s.applyingTemplate = false) :
    (appliedIdReaction (directEditOptions f s)).appliedTemplateId = none ∧
    (appliedIdReaction (directEditOptions f s)).options = f s.options ∧
    (appliedIdReaction (handleLoadTemplate t s)).appliedTemplateId = some t.id ∧
    (appliedIdReaction (handleLoadTemplate t s)).options = t.options ∧
    (appliedIdReaction (handleLoadTemplate t s)).applyingTemplate = false ∧
    (appliedIdReaction (directEditOptions g (appliedIdReaction (handleLoadTemplate t s)))).appliedTemplateId
      = none := by
  refine ⟨?_, ?_, ?_, ?_, ?_, ?_⟩ <;>
    cases h : s.appliedTemplateId <;>
      simp [appliedIdReaction, directEditOptions, handleLoadTemplate, hready, hflag, h]

/-- C2, witness at a concrete ready state carrying a stale applied id. -/
theorem direct_edit_clears_applied_load_sets_applied_witness :
    demoSyncState.isConfigReady = true ∧
    demoSyncState.applyingTemplate = false ∧
    (appliedIdReaction (directEditOptions demoEdit demoSyncState)).appliedTemplateId = none ∧
    (appliedIdReaction (handleLoadTemplate demoTemplate demoSyncState)).appliedTemplateId
      = some "tpl-2" ∧
    (appliedIdReaction (handleLoadTemplate demoTemplate demoSyncState)).options
      = demoTemplate.options ∧
    (appliedIdReaction (handleLoadTemplate demoTemplate demoSyncState)).applyingTemplate = false ∧
    (appliedIdReaction (directEditOptions demoEdit
        (appliedIdReaction (handleLoadTemplate demoTemplate demoSyncState)))).appliedTemplateId
      = none := by
  have h := direct_edit_clears_applied_load_sets_applied demoSyncState demoEdit demoEdit
    demoTemplate rfl rfl
  exact ⟨rfl, rfl, h.1, h.2.2.1, h.2.2.2.1, h.2.2.2.2.1, h.2.2.2.2.2⟩

/-- C3, counterexample: deleting the selected-and-applied template when the
host reports no surviving last-used id but one template remains: selection
falls back to the most recent remaining template, while the applied id is
set to null — not to that same fallback, contradicting the claim. -/
theorem delete_applied_fallback_mismatch :
    (handleDeleteTemplate "A" (some "A") demoDeleteResult).2.1 = some "B" ∧
    (handleDeleteTemplate "A" (some "A") demoDeleteResult).2.2 = none ∧
    (handleDeleteTemplate "A" (some "A") demoDeleteResult).2.2
      ≠ (handleDeleteTemplate "A" (some "A") demoDeleteResult).2.1 := by
  refine ⟨rfl, rfl, ?_⟩
  intro h
  simp [handleDeleteTemplate, sortTemplatesByTime, insertByTimeDesc, demoDeleteResult] at h

/-- C3, amended: after a successful deletion the new selected id is the
host-reported last-used id if it exists in the new sorted list, else the
most recent remaining template's id, else null; the applied id is updated
exactly when the deleted (selected) template was the applied one, but its
fallback is the host-reported last-used id if it exists in the new list and
null otherwise — it never falls back to the most recent remaining
template. -/
theorem handleDeleteTemplate_fallbacks
    (selectedId : String) (appliedId : Option String) (result : DeleteResult) :
    (handleDeleteTemplate selectedId appliedId result).1 = sortTemplatesByTime result.templates ∧
    (∀ lid, result.lastUsedTemplateId = some lid →
      ((sortTemplatesByTime result.templates).any (fun item => item.id = lid) = true →
        (handleDeleteTemplate selectedId appliedId result).2.1 = some lid ∧
        (appliedId = some selectedId →
          (handleDeleteTemplate selectedId appliedId result).2.2 = some lid)) ∧
      ((sortTemplatesByTime result.templates).any (fun item => item.id = lid) = false →
        (handleDeleteTemplate selectedId appliedId result).2.1 =
          (sortTemplatesByTime result.templates).head?.map WatermarkTemplate.id ∧
        (appliedId = some selectedId →
          (handleDeleteTemplate selectedId appliedId result).2.2 = none))) ∧
    (result.lastUsedTemplateId = none →
      (handleDeleteTemplate selectedId appliedId result).2.1 =
        (sortTemplatesByTime result.templates).head?.map WatermarkTemplate.id ∧
      (appliedId = some selectedId →
        (handleDeleteTemplate selectedId appliedId result).2.2 = none)) ∧
    (appliedId ≠ some selectedId →
      (handleDeleteTemplate selectedId appliedId result).2.2 = appliedId) := by
  refine ⟨rfl, ?_, ?_, ?_⟩
  · intro lid hlid
    constructor
    · intro hin
      constructor
      · simp [handleDeleteTemplate, hlid, hin]
      · intro happ; simp [handleDeleteTemplate, hlid, hin, happ]
    · intro hout
      constructor
      · simp [handleDeleteTemplate, hlid, hout]
      · intro happ; simp [handleDeleteTemplate, hlid, hout, happ]
  · intro hnone
    constructor
    · simp [handleDeleteTemplate, hnone]
    · intro happ; simp [handleDeleteTemplate, hnone, happ]
  · intro hne
    simp [handleDeleteTemplate, hne]

/-- C3, witness for the amended theorem at concrete deletions covering the
absent, present and not-applied cases. -/
theorem handleDeleteTemplate_fallbacks_witness :
    demoDeleteResult.lastUsedTemplateId = none ∧
    (handleDeleteTemplate "A" (some "A") demoDeleteResult).2.1 =
      (sortTemplatesByTime demoDeleteResult.templates).head?.map WatermarkTemplate.id ∧
    (handleDeleteTemplate "A" (some "A") demoDeleteResult).2.2 = none ∧
    (handleDeleteTemplate "A" (some "Z") demoDeleteResult).2.2 = some "Z" ∧
    demoDeleteResultLast.lastUsedTemplateId = some "B" ∧
    (handleDeleteTemplate "A" (some "A") demoDeleteResultLast).2.1 = some "B" ∧
    (handleDeleteTemplate "A" (some "A") demoDeleteResultLast).2.2 = some "B" := by
  have h1 := handleDeleteTemplate_fallbacks "A" (some "A") demoDeleteResult
  have h2 := handleDeleteTemplate_fallbacks "A" (some "Z") demoDeleteResult
  have h3 := handleDeleteTemplate_fallbacks "A" (some "A") demoDeleteResultLast
  refine ⟨rfl, (h1.2.2.1 rfl).1, (h1.2.2.1 rfl).2 rfl, h2.2.2.2 (by decide), rfl,
    ((h3.2.1 "B" rfl).1 rfl).1, ((h3.2.1 "B" rfl).1 rfl).2 rfl⟩

/-- C4: starting an export with an empty queue or an empty output directory
moves the status straight to the error state with a null summary, and no
payload is ever handed to the host. -/
theorem export_guards_error_without_host_call
    (fileList : List FileInfo) (wm : WatermarkOptions) (eo : ExportOptions)
    (prev : ExportStatus) (host : HostBatchResult) (progress : List ExportProgressPayload)
    (h : fileList = [] ∨ eo.outputDir = "") :
    (handleStartExport fileList wm eo prev host progress).1.state = .error ∧
    (handleStartExport fileList wm eo prev host progress).1.summary = none ∧
    (handleStartExport fileList wm eo prev host progress).2 = none := by
  rcases h with h | h
  · subst h
    simp [handleStartExport]
  · by_cases hf : fileList.length = 0
    · simp [handleStartExport, hf]
    · simp [handleStartExport, hf, h]

/-- C4, witness at both guard branches. -/
theorem export_guards_error_without_host_call_witness :
    (handleStartExport [] initialWatermarkOptions demoExportOptions demoIdleStatus
      (.ok demoSummary) []).1.state = .error ∧
    (handleStartExport [] initialWatermarkOptions demoExportOptions demoIdleStatus
      (.ok demoSummary) []).1.summary = none ∧
    (handleStartExport [] initialWatermarkOptions demoExportOptions demoIdleStatus
      (.ok demoSummary) []).2 = none ∧
    { demoExportOptions with outputDir := "" }.outputDir = "" ∧
    (handleStartExport demoFileList initialWatermarkOptions
      { demoExportOptions with outputDir := "" } demoIdleStatus
      (.ok demoSummary) []).1.state = .error ∧
    (handleStartExport demoFileList initialWatermarkOptions
      { demoExportOptions with outputDir := "" } demoIdleStatus
      (.ok demoSummary) []).1.summary = none ∧
    (handleStartExport demoFileList initialWatermarkOptions
      { demoExportOptions with outputDir := "" } demoIdleStatus
      (.ok demoSummary) []).2 = none := by
  have h1 := export_guards_error_without_host_call [] initialWatermarkOptions demoExportOptions
    demoIdleStatus (.ok demoSummary) [] (Or.inl rfl)
  have h2 := export_guards_error_without_host_call demoFileList initialWatermarkOptions
    { demoExportOptions with outputDir := "" } demoIdleStatus (.ok demoSummary) [] (Or.inr rfl)
  exact ⟨h1.1, h1.2.1, h1.2.2, rfl, h2.1, h2.2.1, h2.2.2⟩

/-- C5: with a non-empty queue and a set output directory, a host batch that
resolves with a summary yields the completed state carrying exactly that
summary, with processed and total both equal to the number of file paths
sent — whatever the summary's failure list contains. -/
theorem export_success_completed_with_summary
    (fileList : List FileInfo) (wm : WatermarkOptions) (eo : ExportOptions)
    (prev : ExportStatus) (s : ExportSummary) (progress : List ExportProgressPayload)
    (hf : fileList ≠ []) (hd : eo.outputDir ≠ "") :
    (handleStartExport fileList wm eo prev (.ok s) progress).1 =
      { state := .completed
        total := fileList.length
        processed := fileList.length
        message := some ("导出完成：成功 " ++ toString s.successCount
          ++ " 个，失败 " ++ toString s.failureCount ++ " 个")
        summary := some s } ∧
    (handleStartExport fileList wm eo prev (.ok s) progress).2 =
      some (exportPayloadOf fileList wm eo) ∧
    (exportPayloadOf fileList wm eo).filePaths.length = fileList.length := by
  have hlen : ¬ fileList.length = 0 := by
    simpa [List.length_eq_zero] using hf
  refine ⟨?_, ?_, ?_⟩ <;> simp [handleStartExport, exportPayloadOf, hlen, hd]

/-- C5, witness: a four-file export whose summary records one per-file
failure still completes with that exact summary and processed = total = 4. -/
theorem export_success_completed_with_summary_witness :
    demoFileList ≠ [] ∧
    demoExportOptions.outputDir ≠ "" ∧
    demoSummary.failures ≠ [] ∧
    (handleStartExport demoFileList initialWatermarkOptions demoExportOptions demoIdleStatus
      (.ok demoSummary) [demoProgress]).1 =
      { state := .completed, total := 4, processed := 4
        message := some "导出完成：成功 3 个，失败 1 个"
        summary := some demoSummary } := by
  have h := export_success_completed_with_summary demoFileList initialWatermarkOptions
    demoExportOptions demoIdleStatus demoSummary [demoProgress] (by decide) (by decide)
  exact ⟨by decide, by decide, by decide, h.1.trans (by decide)⟩

/-- C6: a progress event delivered while the status is not running leaves
the status entirely unchanged, and one delivered while running replaces
processed, total and the progress message with the payload's values. -/
theorem progress_event_guarded_by_running
    (prev : ExportStatus) (payload : ExportProgressPayload) :
    (prev.state ≠ .running → applyProgress prev payload = prev) ∧
    (prev.state = .running →
      applyProgress prev payload =
        { prev with
          total := payload.total
          processed := payload.processed
          message := some (progressMessage payload.processed payload.total) }) := by
  constructor
  · intro h
    simp [applyProgress, h]
  · intro h
    simp [applyProgress, h]

/-- C6, witness: a stray late event after completion changes nothing, while
the same event during a run updates the counters. -/
theorem progress_event_guarded_by_running_witness :
    demoCompletedStatus.state ≠ .running ∧
    applyProgress demoCompletedStatus demoProgress = demoCompletedStatus ∧
    (initialRunningStatus 4).state = .running ∧
    applyProgress (initialRunningStatus 4) demoProgress =
      { initialRunningStatus 4 with
        total := 4, processed := 2, message := some (progressMessage 2 4) } := by
  have h1 := (progress_event_guarded_by_running demoCompletedStatus demoProgress).1 (by decide)
  have h2 := (progress_event_guarded_by_running (initialRunningStatus 4) demoProgress).2 rfl
  exact ⟨by decide, h1, rfl, h2⟩

/-- C8, counterexample: with a resolver that resolves the first path and
rejects the second, the whole batch append is skipped — the entry that did
resolve never reaches the file list, so "entries for the paths that did
resolve are not lost" fails on the code. -/
theorem processFiles_loses_resolved_on_failure :
    resolveEntry demoGetFileName demoGetThumbnail "a.png" = .ok ⟨"a.png", "a", "thumb"⟩ ∧
    resolveEntry demoGetFileName demoGetThumbnail "b.png" = .error "getFileName failed" ∧
    processFiles demoGetFileName demoGetThumbnail [] ["a.png", "b.png"] = [] ∧
    ¬ (⟨"a.png", "a", "thumb"⟩ : FileInfo)
        ∈ processFiles demoGetFileName demoGetThumbnail [] ["a.png", "b.png"] := by
  refine ⟨rfl, rfl, rfl, ?_⟩
  intro h
  rw [show processFiles demoGetFileName demoGetThumbnail [] ["a.png", "b.png"] = [] from rfl] at h
  exact absurd h (List.not_mem_nil _)

/-- C8, amended: when resolving any individual path fails, the combined
promise rejects and the append is skipped wholesale — the previously
accumulated list is preserved unchanged, but the entries of the same batch
that did resolve are dropped with it; only a batch in which every path
resolves appends its entries (in input order). -/
theorem processFiles_batch_append_or_unchanged
    (getFileName getThumbnail : String → Except String String)
    (prevList : List FileInfo) (files : List String) :
    (∀ e, promiseAll (files.map (resolveEntry getFileName getThumbnail)) = .error e →
      processFiles getFileName getThumbnail prevList files = prevList) ∧
    (∀ l, promiseAll (files.map (resolveEntry getFileName getThumbnail)) = .ok l →
      processFiles getFileName getThumbnail prevList files = prevList ++ l) := by
  constructor
  · intro e h
    by_cases hemp : files.isEmpty
    · simp [processFiles, hemp]
    · simp [processFiles, hemp, h]
  · intro l h
    by_cases hemp : files.isEmpty
    · have hnil : files = [] := by simpa [List.isEmpty_iff] using hemp
      subst hnil
      simp [promiseAll] at h
      simp [processFiles, ← h]
    · simp [processFiles, hemp, h]

/-- C8, witness for the amended theorem: a failing batch leaves the prior
list untouched, a fully-resolving batch appends its entries. -/
theorem processFiles_batch_append_or_unchanged_witness :
    promiseAll (["a.png", "b.png"].map (resolveEntry demoGetFileName demoGetThumbnail))
      = .error "getFileName failed" ∧
    processFiles demoGetFileName demoGetThumbnail demoPrevList ["a.png", "b.png"]
      = demoPrevList ∧
    promiseAll (["a.png"].map (resolveEntry demoGetFileName demoGetThumbnail))
      = .ok [⟨"a.png", "a", "thumb"⟩] ∧
    processFiles demoGetFileName demoGetThumbnail demoPrevList ["a.png"]
      = demoPrevList ++ [⟨"a.png", "a", "thumb"⟩] := by
  have h1 := (processFiles_batch_append_or_unchanged demoGetFileName demoGetThumbnail
    demoPrevList ["a.png", "b.png"]).1 "getFileName failed" rfl
  have h2 := (processFiles_batch_append_or_unchanged demoGetFileName demoGetThumbnail
    demoPrevList ["a.png"]).2 [⟨"a.png", "a", "thumb"⟩] rfl
  exact ⟨rfl, h1, rfl, h2⟩

/-- With the initial load still pending, a change never schedules a write. -/
theorem debounce_foldl_not_ready (changes : List Nat) (w : List Nat) :
    changes.foldl (debounceStep false) ⟨none, w⟩ = ⟨none, w⟩ := by
  induction changes with
  | nil => rfl
  | cons t ts ih => simpa [debounceStep] using ih

/-- As long as each change lands inside the pending 400 ms window, it
cancels the pending write and reschedules it, with no write emitted. -/
theorem debounce_foldl_chain (ts : List Nat) : ∀ prev w, gapsWithinWindow prev ts = true →
    ts.foldl (debounceStep true) ⟨some (prev + 400), w⟩
      = ⟨some (ts.getLastD prev + 400), w⟩ := by
  induction ts with
  | nil =>
    intro prev w _
    simp [List.getLastD]
  | cons t ts ih =>
    intro prev w h
    simp [gapsWithinWindow] at h
    have hnle : ¬ (prev + 400 ≤ t) := by omega
    have hstep : debounceStep true ⟨some (prev + 400), w⟩ t = ⟨some (t + 400), w⟩ := by
      simp [debounceStep, hnle]
    rw [List.foldl_cons, hstep, ih t w h.2]
    cases ts <;> simp [List.getLastD]

/-- C9: no persistence write is ever scheduled before the initial config
load completes; after it, a run of changes each landing within 400 ms of
the previous one produces exactly one write, 400 ms after the last
change. -/
theorem debounce_write_timing :
    (∀ changes, debounceRun false changes = []) ∧
    (∀ c cs, gapsWithinWindow c cs = true →
      debounceRun true (c :: cs) = [cs.getLastD c + 400]) := by
  constructor
  · intro changes
    simp [debounceRun, debounce_foldl_not_ready, debounceFlush]
  · intro c cs h
    have h0 : debounceStep true ⟨none, []⟩ c = ⟨some (c + 400), []⟩ := by
      simp [debounceStep]
    simp [debounceRun, List.foldl_cons, h0, debounce_foldl_chain cs c [] h, debounceFlush]

/-- C9, witness: three edits 50 ms apart yield a single write at 500 ms,
i.e. 400 ms after the last edit; before the load completes a change yields
no write. -/
theorem debounce_write_timing_witness :
    debounceRun false [3] = [] ∧
    gapsWithinWindow 0 [50, 100] = true ∧
    debounceRun true [0, 50, 100] = [[50, 100].getLastD 0 + 400] ∧
    [50, 100].getLastD 0 + 400 = 500 :=
  ⟨debounce_write_timing.1 [3], rfl, debounce_write_timing.2 0 [50, 100] rfl, rfl⟩

/-- Progress events never move the status out of the running state. -/
theorem foldl_applyProgress_running (l : List ExportProgressPayload) (s : ExportStatus)
    (h : s.state = .running) : (l.foldl applyProgress s).state = .running := by
  induction l generalizing s with
  | nil => exact h
  | cons p ps ih =>
    apply ih
    simp [applyProgress, h]

/-- C10: when the host batch call rejects, the status the run had at that
moment — the initial running status as updated by the delivered progress
events, still in the running state — is kept except that the state becomes
error, the message becomes the fault's message, and the summary becomes
null; in particular total and processed are carried over unchanged. -/
theorem export_reject_frame
    (fileList : List FileInfo) (wm : WatermarkOptions) (eo : ExportOptions)
    (prev : ExportStatus) (msg : String) (progress : List ExportProgressPayload)
    (hf : fileList ≠ []) (hd : eo.outputDir ≠ "") :
    (progress.foldl applyProgress (initialRunningStatus fileList.length)).state = .running ∧
    (handleStartExport fileList wm eo prev (.rejected msg) progress).1 =
      { progress.foldl applyProgress (initialRunningStatus fileList.length) with
        state := .error, message := some msg, summary := none } ∧
    (handleStartExport fileList wm eo prev (.rejected msg) progress).1.total =
      (progress.foldl applyProgress (initialRunningStatus fileList.length)).total ∧
    (handleStartExport fileList wm eo prev (.rejected msg) progress).1.processed =
      (progress.foldl applyProgress (initialRunningStatus fileList.length)).processed := by
  have hlen : ¬ fileList.length = 0 := by
    simpa [List.length_eq_zero] using hf
  have hrun := foldl_applyProgress_running progress (initialRunningStatus fileList.length) rfl
  refine ⟨hrun, ?_, ?_, ?_⟩ <;>
    simp [handleStartExport, exportPayloadOf, hlen, hd]

/-- C10, witness: a four-file run that saw one progress event (2 of 4) and
then a host-level rejection ends in the error state with total 4 and
processed 2 preserved, a null summary and the fault's message. -/
theorem export_reject_frame_witness :
    demoFileList ≠ [] ∧
    demoExportOptions.outputDir ≠ "" ∧
    (handleStartExport demoFileList initialWatermarkOptions demoExportOptions demoIdleStatus
      (.rejected "disk full") [demoProgress]).1 =
      { state := .error, total := 4, processed := 2
        message := some "disk full", summary := none } := by
  have h := export_reject_frame demoFileList initialWatermarkOptions demoExportOptions
    demoIdleStatus "disk full" [demoProgress] (by decide) (by decide)
  exact ⟨by decide, by decide, h.2.1.trans (by decide)⟩

end PhotoWatermark
